import Mathlib

/-!
Verification of the Cinco Coffee client-side state machine
(session lifecycle, login rate limiter, per-user cart store, cart
price-integrity check), shallowly embedded from the repository's
JavaScript sources.

Conventions of the embedding:
* `localStorage` maps (the per-email login-attempt map, the per-user
  cart map) become Lean functions `String → Option α`; a key that is
  absent from the JSON object is `none`.
* JavaScript timestamps (`Date.now()`) become `Nat` arguments threaded
  explicitly.  All timestamp comparisons in the source are of the shape
  `now - ts <= C` or `now - ts > C`; for `now < ts` JavaScript yields a
  negative difference while Nat subtraction yields `0`, and both sides
  of each comparison agree in that case, so `Nat` subtraction is a
  faithful model of every comparison that actually occurs.
* Falsy-checks on numeric fields (`!entry.lockedUntil`,
  `!s.lastActivity`, `!entry.firstTs`) become comparisons with `0`,
  matching the JavaScript semantics on numbers.
-/

namespace Cinco

/-- Update of a string-keyed map, modelling one `localStorage`-object
field assignment (or deletion, with `none`). -/
def mapSet {α : Type} (s : String → Option α) (k : String) (v : Option α) :
    String → Option α :=
  fun x => if x = k then v else s x

theorem mapSet_same {α : Type} (s : String → Option α) (k : String) (v : Option α) :
    mapSet s k v k = v := by
  simp [mapSet]

theorem mapSet_other {α : Type} (s : String → Option α) (k x : String) (v : Option α)
    (h : x ≠ k) : mapSet s k v x = s x := by
  simp [mapSet, h]

/-! ## Login rate limiter (unified script, `recordFailedLogin` and friends)

Constants `MAX_LOGIN_ATTEMPTS = 5` and `LOCKOUT_MS = 15 * 60 * 1000`
are taken verbatim from the source. -/

def MAX_LOGIN_ATTEMPTS : Nat := 5

def LOCKOUT_MS : Nat := 15 * 60 * 1000

/-- One entry of the per-email failed-login map
(`cinco_login_attempts_v2`): `{attempts, firstTs, lastTs, lockedUntil}`.
`lockedUntil = 0` is the JavaScript falsy sentinel for "no lockout". -/
structure AttemptEntry where
  attempts : Nat
  firstTs : Nat
  lastTs : Nat
  lockedUntil : Nat
  deriving DecidableEq, Repr

def AttemptStore : Type := String → Option AttemptEntry

def emptyAttempts : AttemptStore := fun _ => none

/-- ASCII model of the whitespace class removed by
`String.prototype.trim`. -/
def jsIsSpace (c : Char) : Bool :=
  c = ' ' || c = '\t' || c = '\n' || c = '\r'

/-- `String.prototype.trim`: drop whitespace from both ends. -/
def jsTrim (s : String) : String :=
  ⟨((s.data.dropWhile jsIsSpace).reverse.dropWhile jsIsSpace).reverse⟩

/-- ASCII model of `String.prototype.toLowerCase`. -/
def jsToLower (s : String) : String :=
  ⟨s.data.map Char.toLower⟩

/-- The key normalisation every rate-limiter entry point performs:
`String(email).trim().toLowerCase()`.  An empty input email yields the
empty key directly in the source; trimming the empty string is the
empty string, so the composition agrees on every input. -/
def normKey (email : String) : String :=
  jsToLower (jsTrim email)

/-- `getLoginStatus(email)`: returns the stored entry for the
normalised key, or an all-zero entry when the key is empty or absent. -/
def getLoginStatus (email : String) (s : AttemptStore) : AttemptEntry :=
  if normKey email = "" then ⟨0, 0, 0, 0⟩
  else (s (normKey email)).getD ⟨0, 0, 0, 0⟩

/-- The mutation `recordFailedLogin` applies to the (defaulted) entry:
increment `attempts`, stamp `lastTs`, backfill a falsy `firstTs`, and
set `lockedUntil = now + LOCKOUT_MS` once `attempts` reaches
`MAX_LOGIN_ATTEMPTS`. -/
def bumpEntry (now : Nat) (e : AttemptEntry) : AttemptEntry :=
  { attempts := e.attempts + 1
    firstTs := if e.firstTs = 0 then now else e.firstTs
    lastTs := now
    lockedUntil :=
      if MAX_LOGIN_ATTEMPTS ≤ e.attempts + 1 then now + LOCKOUT_MS
      else e.lockedUntil }

/-- `recordFailedLogin(email)`: no-op on an empty normalised key, else
read the entry (defaulting to `{0, now, now, 0}`), bump it and write it
back under the normalised key. -/
def recordFailedLogin (now : Nat) (email : String) (s : AttemptStore) :
    AttemptStore :=
  if normKey email = "" then s
  else
    mapSet s (normKey email)
      (some (bumpEntry now ((s (normKey email)).getD ⟨0, now, now, 0⟩)))

/-- `resetLoginAttempts(email)`: delete the entry under the normalised
key when it is present; no-op otherwise. -/
def resetLoginAttempts (email : String) (s : AttemptStore) : AttemptStore :=
  if normKey email = "" then s
  else if (s (normKey email)).isSome then mapSet s (normKey email) none
  else s

/-- The record `isLocked` returns:
`{locked, remaining, attempts}`. -/
structure LockStatus where
  locked : Bool
  remaining : Nat
  attempts : Nat
  deriving DecidableEq, Repr

/-- `isLocked(email)`: reports a lockout while `now < lockedUntil`;
once the lockout has elapsed it auto-clears the entry (via
`resetLoginAttempts`) and reports unlocked with zero attempts.  The
second component is the store after the call. -/
def isLocked (now : Nat) (email : String) (s : AttemptStore) :
    LockStatus × AttemptStore :=
  let entry := getLoginStatus email s
  if entry.lockedUntil = 0 then (⟨false, 0, entry.attempts⟩, s)
  else if now < entry.lockedUntil then
    (⟨true, entry.lockedUntil - now, entry.attempts⟩, s)
  else (⟨false, 0, 0⟩, resetLoginAttempts email s)

/-! ## Session manager (unified script, `SessionManager` closure)

Constants are verbatim from the source: a 30-minute inactivity
timeout, a 1-minute monitor interval, a 5-second activity throttle. -/

def SESSION_TIMEOUT_MS : Nat := 30 * 60 * 1000

def MONITOR_INTERVAL_MS : Nat := 60 * 1000

def ACTIVITY_THROTTLE_MS : Nat := 5000

/-- The session record written under `cinco_session_v1`:
`{userId, email, token, createdAt, lastActivity, meta}` (`meta`
carries no logic and is omitted).  `userId` is a non-empty string or
`null` in the source; `none` models `null`. -/
structure SMSession where
  userId : Option String
  email : String
  token : String
  createdAt : Nat
  lastActivity : Nat
  deriving DecidableEq, Repr

/-- `SessionManager.isValid()`: false when no session is stored or its
`lastActivity` is falsy, else `now - lastActivity <= SESSION_TIMEOUT_MS`. -/
def smIsValid (now : Nat) (s : Option SMSession) : Bool :=
  match s with
  | none => false
  | some s =>
    if s.lastActivity = 0 then false
    else now - s.lastActivity ≤ SESSION_TIMEOUT_MS

/-- The module state of the `SessionManager` closure: the throttle
timestamp `lastActivityTs` and the stored session (the
`cinco_session_v1` key, `none` when absent). -/
structure SMState where
  lastActivityTs : Nat
  session : Option SMSession
  deriving DecidableEq, Repr

/-- `SessionManager.refresh()`: a call within `ACTIVITY_THROTTLE_MS` of
the previously accepted call returns false and writes nothing;
otherwise the throttle timestamp advances, and when a session is
stored its `lastActivity` is stamped with the current time.  Returns
whether a session write happened, paired with the new state. -/
def smRefresh (t : Nat) (st : SMState) : Bool × SMState :=
  if t - st.lastActivityTs < ACTIVITY_THROTTLE_MS then (false, st)
  else
    match st.session with
    | none => (false, { st with lastActivityTs := t })
    | some s =>
      (true,
        { lastActivityTs := t, session := some { s with lastActivity := t } })

/-- `SessionManager.checkOnce()` (run every `MONITOR_INTERVAL_MS` by
`startMonitor`): removes the stored session when
`now - lastActivity > SESSION_TIMEOUT_MS`.  Note that in the source
this path (`expire` → `clear`) removes only the session key, never the
cart key. -/
def smCheckOnce (now : Nat) (session : Option SMSession) : Option SMSession :=
  match session with
  | none => none
  | some s => if SESSION_TIMEOUT_MS < now - s.lastActivity then none else some s

/-! ## Session lifecycle (cincoscript.js)

The `userSession` record and the periodic
`checkSessionExpiration`/`logoutUser` pair; this is the variant whose
logout clears the session, the current-user marker and the cart. -/

/-- The `userSession` record of cincoscript.js:
`{email, token, createdAt, lastActivityAt, expiresAt, isActive}`. -/
structure CSession where
  email : String
  token : String
  createdAt : Nat
  lastActivityAt : Nat
  expiresAt : Nat
  isActive : Bool
  deriving DecidableEq, Repr

/-- `isSessionValid()`: requires a stored, active session, then
`now <= expiresAt` and `now - lastActivityAt <= SESSION_TIMEOUT_MS`. -/
def isSessionValid (now : Nat) (s : Option CSession) : Bool :=
  match s with
  | none => false
  | some s =>
    if !s.isActive then false
    else if s.expiresAt < now then false
    else if SESSION_TIMEOUT_MS < now - s.lastActivityAt then false
    else true

/-- A product line of the cincoscript.js cart (`cincoCoffeeCart`):
`{name, price, img, size, quantity}` as built by `addToCart` from the
button dataset. -/
structure CProduct where
  name : String
  price : Int
  img : String
  size : String
  quantity : Nat
  deriving DecidableEq, Repr

/-- The slice of `localStorage` that `logoutUser` touches:
the `userSession` record, the `currentUser` marker and the
`cincoCoffeeCart` list (each `none` when its key is absent). -/
structure CStorage where
  userSession : Option CSession
  currentUser : Option String
  cincoCoffeeCart : Option (List CProduct)
  deriving DecidableEq, Repr

/-- `logoutUser()`: removes the `userSession`, `currentUser` and
`cincoCoffeeCart` keys (it also hides the timeout notification and
redirects to the login page, which carry no storage state). -/
def logoutUser (_st : CStorage) : CStorage :=
  { userSession := none, currentUser := none, cincoCoffeeCart := none }

/-- `checkSessionExpiration()` (run every 30 seconds): when the stored
session fails `isSessionValid`, shows the timeout notification and then
logs the user out.  The 2-second notification delay before `logoutUser`
runs is folded into the single step, as nothing else runs in between in
the single-threaded model. -/
def checkSessionExpiration (now : Nat) (st : CStorage) : CStorage :=
  if isSessionValid now st.userSession then st else logoutUser st

/-- `addToCart(e)` of cincoscript.js: the product built from the
clicked button carries `quantity = 1`; the first cart line with the
same `name` and `size` has its quantity incremented by 1, and when none
matches the product is appended at the end. -/
def csAddToCart (product : CProduct) : List CProduct → List CProduct
  | [] => [product]
  | item :: rest =>
    if item.name == product.name && item.size == product.size then
      { item with quantity := item.quantity + 1 } :: rest
    else item :: csAddToCart product rest

/-- The total recomputed by `updateCart()`: the sum over the cart of
`price * quantity`. -/
def cartTotal (cart : List CProduct) : Int :=
  cart.foldl (fun total item => total + item.price * item.quantity) 0

/-! ## Per-user cart store (unified script, `cincoCart`)

The unified script keeps the cart as a map `userId → list of items`
under the `cincoCart` key; `addToCart` requires a restored session with
a truthy `userId` and mutates only that user's entry. -/

/-- An item of the per-user cart: `{id, name, price, qty}` after the
normalisation `addToCart` applies (`qty = qty || 1`,
`price = Number(price) || 0`, `name = name || id`). -/
structure P1Item where
  id : String
  name : String
  price : Int
  qty : Nat
  deriving DecidableEq, Repr

/-- The session `addToCart` restores from the `cincoSession` key or
from `SessionManager.get()`; only `userId` is consulted, and `none`
models both a missing field and `null`. -/
structure P1Session where
  userId : Option String
  deriving DecidableEq, Repr

def CartStore : Type := String → Option (List P1Item)

def emptyCarts : CartStore := fun _ => none

/-- The outcome `addToCart` signals through its notifications. -/
inductive AddOutcome where
  | rejectedNoSession
  | rejectedInvalidItem
  | added
  deriving DecidableEq, Repr

/-- The input normalisation `addToCart` applies before merging:
`item.qty = item.qty || 1`, `item.name = item.name || item.id`
(`price = Number(item.price) || 0` is the identity on the integer
prices modelled here). -/
def p1Normalize (item : P1Item) : P1Item :=
  { item with
    qty := if item.qty = 0 then 1 else item.qty
    name := if item.name = "" then item.id else item.name }

/-- The merge step of `addToCart`: the first cart line whose `id`
matches gets its `qty` increased by the item's `qty`; when none
matches the item is pushed at the end. -/
def p1Merge (item : P1Item) : List P1Item → List P1Item
  | [] => [item]
  | p :: rest =>
    if p.id == item.id then { p with qty := p.qty + item.qty } :: rest
    else p :: p1Merge item rest

/-- `addToCart(item)` of the unified script: rejected with a login
prompt (and a redirect to the login page) when no session with a
truthy `userId` is restored; rejected as invalid when the item has a
falsy `id`; otherwise the normalised item is merged into the cart
entry of `session.userId` and the full map is persisted back. -/
def p1AddToCart : Option P1Session → P1Item → CartStore →
    AddOutcome × CartStore
  | none, _, store => (.rejectedNoSession, store)
  | some ⟨none⟩, _, store => (.rejectedNoSession, store)
  | some ⟨some uid⟩, item, store =>
    if uid = "" then (.rejectedNoSession, store)
    else if item.id = "" then (.rejectedInvalidItem, store)
    else
      (.added,
        mapSet store uid (some (p1Merge (p1Normalize item) ((store uid).getD []))))

/-- `removeFromCart(index)` of the unified script: requires a session
with a truthy `userId`; splices one element out of that user's entry
and persists the map back. -/
def p1RemoveFromCart : Option P1Session → Nat → CartStore → CartStore
  | none, _, store => store
  | some ⟨none⟩, _, store => store
  | some ⟨some uid⟩, index, store =>
    if uid = "" then store
    else mapSet store uid (some (((store uid).getD []).eraseIdx index))

/-- The cart a user sees: `allCarts[session.userId] || []`, as read by
`updateCartCount` and `rebuildCartModal`. -/
def visibleCart (store : CartStore) (uid : String) : List P1Item :=
  (store uid).getD []

/-! ## Cart price-integrity check (unified script)

`verifyCartIntegrity` compares each cart line against the hardcoded
`MENU_PRICES` table and `processCheckout` rejects the whole order on
any flagged line. -/

/-- The fields of a cart line that `verifyCartIntegrity` reads. -/
structure CheckoutLine where
  name : String
  price : Int
  deriving DecidableEq, Repr

/-- The hardcoded legitimate menu prices (source of truth), verbatim
from `verifyCartIntegrity`. -/
def MENU_PRICES : List (String × Int) :=
  [("Americano", 70),
   ("Café Latte", 80),
   ("Spanish Latte", 90),
   ("French Vanilla", 90),
   ("White Choco Mocha", 100),
   ("Sea Salt Latte", 100),
   ("Caramel Macchiato", 100),
   ("Milky Ube", 90),
   ("Strawberry Milk", 90),
   ("Caramel Milk", 90),
   ("Matcha Latte", 100),
   ("Milky Choco", 100)]

/-- The object read `MENU_PRICES[item.name]`: `none` models
`undefined`. -/
def menuLookup (name : String) : Option Int :=
  (MENU_PRICES.find? (fun e => e.1 == name)).map (fun e => e.2)

/-- The per-line test of `verifyCartIntegrity`:
`!legitimatePrice || item.price <= 0 || item.price !== legitimatePrice`
(a table price of 0 would be falsy, hence the first disjunct of the
`some` branch; no table entry is in fact 0). -/
def lineTampered (item : CheckoutLine) : Bool :=
  match menuLookup item.name with
  | none => true
  | some p => p == 0 || item.price ≤ 0 || item.price != p

/-- The record pushed onto `tamperedItems` for a flagged line. -/
structure TamperedItem where
  item : String
  submittedPrice : Int
  legitimatePrice : Option Int
  deriving DecidableEq, Repr

/-- The record `verifyCartIntegrity` returns. -/
structure VerifyResult where
  isValid : Bool
  tamperedItems : List TamperedItem
  cart : List CheckoutLine
  deriving DecidableEq, Repr

/-- `verifyCartIntegrity()`: walks the cart, flags every line failing
the per-line test, and is valid exactly when no line was flagged. -/
def verifyCartIntegrity (cart : List CheckoutLine) : VerifyResult :=
  { isValid := cart.all (fun item => !lineTampered item)
    tamperedItems :=
      (cart.filter lineTampered).map
        (fun item => ⟨item.name, item.price, menuLookup item.name⟩)
    cart := cart }

/-- `processCheckout()`: returns false (order rejected, tampering
notification shown) when the verification is not valid, true (order
proceeds) otherwise. -/
def processCheckout (cart : List CheckoutLine) : Bool :=
  (verifyCartIntegrity cart).isValid

/-- Projection of a cincoscript.js cart onto the fields the integrity
check reads. -/
def toCheckoutLines (cart : List CProduct) : List CheckoutLine :=
  cart.map (fun p => ⟨p.name, p.price⟩)

/-! ## Supporting lemmas -/

/-- Every price in the hardcoded menu table is positive. -/
theorem menu_price_pos {name : String} {p : Int}
    (h : menuLookup name = some p) : 0 < p := by
  unfold menuLookup at h
  cases hf : MENU_PRICES.find? (fun e => e.1 == name) with
  | none => rw [hf] at h; exact absurd h (by simp)
  | some e =>
    rw [hf] at h
    have h2 : e.2 = p := by simpa using h
    have hmem : e ∈ MENU_PRICES := List.mem_of_find?_eq_some hf
    have hall : ∀ x ∈ MENU_PRICES, 0 < x.2 := by decide
    have := hall e hmem
    omega

/-- A line passes the per-line test exactly when its name is in the
table at exactly its submitted price. -/
theorem lineTampered_false_iff (line : CheckoutLine) :
    lineTampered line = false ↔ menuLookup line.name = some line.price := by
  unfold lineTampered
  cases hm : menuLookup line.name with
  | none => simp
  | some p =>
    have hp : 0 < p := menu_price_pos hm
    constructor
    · intro h
      simp only [Bool.or_eq_false_iff, bne_eq_false_iff_eq, beq_eq_false_iff_ne,
        decide_eq_false_iff_not] at h
      rw [h.2]
    · intro h
      injection h with h
      subst h
      simp only [Bool.or_eq_false_iff, bne_eq_false_iff_eq, beq_eq_false_iff_ne,
        decide_eq_false_iff_not]
      exact ⟨⟨by omega, by omega⟩, trivial⟩

/-! ## C1: cart price-integrity check is all-or-nothing -/

/-- C1.  For every cart submitted at checkout: a line whose product
name is absent from `MENU_PRICES`, whose price is non-positive, or
whose price differs from the table entry for its name marks the whole
cart invalid, appears in `tamperedItems`, and makes `processCheckout`
return false (no line is corrected); when every line matches the table
the cart is marked valid and `processCheckout` returns true. -/
theorem checkout_rejects_any_tampered_line (cart : List CheckoutLine) :
    (∀ line ∈ cart,
        (menuLookup line.name = none ∨ line.price ≤ 0 ∨
            menuLookup line.name ≠ some line.price) →
          (verifyCartIntegrity cart).isValid = false ∧
          (⟨line.name, line.price, menuLookup line.name⟩ : TamperedItem) ∈
            (verifyCartIntegrity cart).tamperedItems ∧
          processCheckout cart = false) ∧
    ((∀ line ∈ cart, menuLookup line.name = some line.price) →
        (verifyCartIntegrity cart).isValid = true ∧
        processCheckout cart = true) := by
  constructor
  · intro line hmem hbad
    have htamper : lineTampered line = true := by
      rcases hbad with hnone | hle | hne
      · unfold lineTampered; rw [hnone]
      · unfold lineTampered
        cases hm : menuLookup line.name with
        | none => rfl
        | some p => simp [hle]
      · cases ht : lineTampered line with
        | true => rfl
        | false => exact absurd ((lineTampered_false_iff line).mp ht) hne
    have hvalid : (verifyCartIntegrity cart).isValid = false := by
      unfold verifyCartIntegrity
      simp only
      cases hall : cart.all (fun item => !lineTampered item) with
      | false => rfl
      | true =>
        have := List.all_eq_true.mp hall line hmem
        rw [htamper] at this
        exact absurd this (by decide)
    refine ⟨hvalid, ?_, hvalid⟩
    show _ ∈ (cart.filter lineTampered).map
      (fun item => (⟨item.name, item.price, menuLookup item.name⟩ : TamperedItem))
    exact List.mem_map_of_mem _ (List.mem_filter.mpr ⟨hmem, htamper⟩)
  · intro hgood
    have : (verifyCartIntegrity cart).isValid = true := by
      unfold verifyCartIntegrity
      simp only
      refine List.all_eq_true.mpr ?_
      intro line hmem
      have := (lineTampered_false_iff line).mpr (hgood line hmem)
      rw [this]
      rfl
    exact ⟨this, this⟩

/-- Witness for C1: the spec scenario line (`"White Choco Mocha"` at a
tampered price of 10 against a table price of 100) is reported and
rejects checkout, and a matching cart (`"Americano"` at 70) passes. -/
theorem checkout_rejects_any_tampered_line_witness :
    (verifyCartIntegrity [⟨"White Choco Mocha", 10⟩]).isValid = false ∧
    (⟨"White Choco Mocha", 10, some 100⟩ : TamperedItem) ∈
      (verifyCartIntegrity [⟨"White Choco Mocha", 10⟩]).tamperedItems ∧
    processCheckout [⟨"White Choco Mocha", 10⟩] = false ∧
    (verifyCartIntegrity [⟨"Americano", 70⟩]).isValid = true ∧
    processCheckout [⟨"Americano", 70⟩] = true := by
  have h1 :=
    (checkout_rejects_any_tampered_line [⟨"White Choco Mocha", 10⟩]).1
      ⟨"White Choco Mocha", 10⟩ (by decide) (by decide)
  have h2 :=
    (checkout_rejects_any_tampered_line [⟨"Americano", 70⟩]).2 (by decide)
  exact ⟨h1.1, h1.2.1, h1.2.2, h2.1, h2.2⟩

/-! ## C2: five failed logins lock the account for 15 minutes -/

/-- What `recordFailedLogin` leaves under the normalised key. -/
theorem record_lookup (now : Nat) (email : String) (s : AttemptStore)
    (hkey : normKey email ≠ "") :
    recordFailedLogin now email s (normKey email) =
      some (bumpEntry now ((s (normKey email)).getD ⟨0, now, now, 0⟩)) := by
  unfold recordFailedLogin
  rw [if_neg hkey, mapSet_same]

/-- C2.  For every email with a non-empty normalised key and no prior
attempt record, five `recordFailedLogin` calls (at arbitrary times
`t1..t5`) leave an entry with 5 attempts and
`lockedUntil = t5 + LOCKOUT_MS` (15 minutes after the fifth failure);
`isLocked` then reports `locked = true` at every moment strictly
before that timestamp, and at any moment at or after it reports
`locked = false` with zero attempts and deletes the stored record, so
the counter reads zero. -/
theorem five_failures_lock_until_timeout (email : String)
    (s0 s5 : AttemptStore) (t1 t2 t3 t4 t5 : Nat)
    (hkey : normKey email ≠ "")
    (hfresh : s0 (normKey email) = none)
    (hs5 : s5 = recordFailedLogin t5 email (recordFailedLogin t4 email
      (recordFailedLogin t3 email (recordFailedLogin t2 email
        (recordFailedLogin t1 email s0))))) :
    (getLoginStatus email s5).attempts = 5 ∧
    (getLoginStatus email s5).lockedUntil = t5 + LOCKOUT_MS ∧
    (∀ now, now < t5 + LOCKOUT_MS → (isLocked now email s5).1.locked = true) ∧
    (∀ now, t5 + LOCKOUT_MS ≤ now →
        (isLocked now email s5).1.locked = false ∧
        (isLocked now email s5).1.attempts = 0 ∧
        (isLocked now email s5).2 (normKey email) = none ∧
        (getLoginStatus email ((isLocked now email s5).2)).attempts = 0) := by
  have l5 : s5 (normKey email) =
      some (bumpEntry t5 (bumpEntry t4 (bumpEntry t3 (bumpEntry t2
        (bumpEntry t1 ⟨0, t1, t1, 0⟩))))) := by
    rw [hs5, record_lookup _ _ _ hkey, record_lookup _ _ _ hkey,
      record_lookup _ _ _ hkey, record_lookup _ _ _ hkey,
      record_lookup _ _ _ hkey, hfresh]
    rfl
  have eatt : (bumpEntry t5 (bumpEntry t4 (bumpEntry t3 (bumpEntry t2
      (bumpEntry t1 (⟨0, t1, t1, 0⟩ : AttemptEntry)))))).attempts = 5 := by
    simp [bumpEntry]
  have elock : (bumpEntry t5 (bumpEntry t4 (bumpEntry t3 (bumpEntry t2
      (bumpEntry t1 (⟨0, t1, t1, 0⟩ : AttemptEntry)))))).lockedUntil =
      t5 + LOCKOUT_MS := by
    simp [bumpEntry, MAX_LOGIN_ATTEMPTS]
  have gls : getLoginStatus email s5 =
      bumpEntry t5 (bumpEntry t4 (bumpEntry t3 (bumpEntry t2
        (bumpEntry t1 ⟨0, t1, t1, 0⟩)))) := by
    unfold getLoginStatus
    rw [if_neg hkey, l5]
    rfl
  have hnz : (t5 + LOCKOUT_MS) ≠ 0 := by
    unfold LOCKOUT_MS
    omega
  refine ⟨by rw [gls, eatt], by rw [gls, elock], ?_, ?_⟩
  · intro now hnow
    unfold isLocked
    simp only [gls, elock]
    rw [if_neg hnz, if_pos hnow]
  · intro now hnow
    have hres : resetLoginAttempts email s5 (normKey email) = none := by
      unfold resetLoginAttempts
      rw [if_neg hkey]
      have hsome : (s5 (normKey email)).isSome = true := by
        rw [l5]
        rfl
      rw [if_pos hsome, mapSet_same]
    have hbranch : isLocked now email s5 =
        (⟨false, 0, 0⟩, resetLoginAttempts email s5) := by
      unfold isLocked
      simp only [gls, elock]
      rw [if_neg hnz, if_neg (by omega)]
    refine ⟨by rw [hbranch], by rw [hbranch], by rw [hbranch]; exact hres, ?_⟩
    rw [hbranch]
    show (getLoginStatus email (resetLoginAttempts email s5)).attempts = 0
    unfold getLoginStatus
    rw [if_neg hkey, hres]
    rfl

/-- Witness for C2: five failures for `a@b.c` at times 1..5 lock the
account at time 10 and unlock it (with the counter cleared) at time
`5 + LOCKOUT_MS`. -/
theorem five_failures_lock_until_timeout_witness :
    (isLocked 10 "a@b.c"
      (recordFailedLogin 5 "a@b.c" (recordFailedLogin 4 "a@b.c" (recordFailedLogin 3 "a@b.c"
        (recordFailedLogin 2 "a@b.c" (recordFailedLogin 1 "a@b.c" emptyAttempts)))))).1.locked =
      true ∧
    (isLocked 900005 "a@b.c"
      (recordFailedLogin 5 "a@b.c" (recordFailedLogin 4 "a@b.c" (recordFailedLogin 3 "a@b.c"
        (recordFailedLogin 2 "a@b.c" (recordFailedLogin 1 "a@b.c" emptyAttempts)))))).1.locked =
      false := by
  have h := five_failures_lock_until_timeout "a@b.c" emptyAttempts _ 1 2 3 4 5
    (by decide) rfl rfl
  exact ⟨h.2.2.1 10 (by decide), (h.2.2.2 900005 (by decide)).1⟩

/-! ## C3: the periodic expiry check clears session and cart -/

/-- C3.  For every stored session with no recorded activity for longer
than the 30-minute timeout, the next run of the periodic expiry check
(`checkSessionExpiration`, whose invalid branch shows the timeout
notification and then runs `logoutUser`) removes the session record,
the current-user marker and the cart from storage.  (The
`SessionManager` variant in the unified script clears only its session
key on expiry; the claim describes the cincoscript.js variant, whose
cited `logoutUser` removes all three keys.) -/
theorem expired_session_check_clears_session_and_cart (now : Nat)
    (st : CStorage) (s : CSession)
    (hs : st.userSession = some s)
    (hinactive : SESSION_TIMEOUT_MS < now - s.lastActivityAt) :
    (checkSessionExpiration now st).userSession = none ∧
    (checkSessionExpiration now st).currentUser = none ∧
    (checkSessionExpiration now st).cincoCoffeeCart = none := by
  have hv : isSessionValid now st.userSession = false := by
    rw [hs]
    show (if !s.isActive then false
      else if s.expiresAt < now then false
      else if SESSION_TIMEOUT_MS < now - s.lastActivityAt then false
      else true) = false
    rw [if_pos hinactive]
    split
    · rfl
    · split <;> rfl
  simp [checkSessionExpiration, hv, logoutUser]

/-- Witness for C3: a session last active at time 0 observed at
`SESSION_TIMEOUT_MS + 1` is cleared together with the cart and the
current-user marker. -/
theorem expired_session_check_clears_session_and_cart_witness :
    (checkSessionExpiration (SESSION_TIMEOUT_MS + 1)
      ⟨some ⟨"a@b.c", "tok", 0, 0, SESSION_TIMEOUT_MS, true⟩, some "a@b.c",
        some [⟨"Americano", 70, "a.png", "16oz", 1⟩]⟩).userSession = none ∧
    (checkSessionExpiration (SESSION_TIMEOUT_MS + 1)
      ⟨some ⟨"a@b.c", "tok", 0, 0, SESSION_TIMEOUT_MS, true⟩, some "a@b.c",
        some [⟨"Americano", 70, "a.png", "16oz", 1⟩]⟩).currentUser = none ∧
    (checkSessionExpiration (SESSION_TIMEOUT_MS + 1)
      ⟨some ⟨"a@b.c", "tok", 0, 0, SESSION_TIMEOUT_MS, true⟩, some "a@b.c",
        some [⟨"Americano", 70, "a.png", "16oz", 1⟩]⟩).cincoCoffeeCart = none :=
  expired_session_check_clears_session_and_cart (SESSION_TIMEOUT_MS + 1)
    ⟨some ⟨"a@b.c", "tok", 0, 0, SESSION_TIMEOUT_MS, true⟩, some "a@b.c",
      some [⟨"Americano", 70, "a.png", "16oz", 1⟩]⟩
    ⟨"a@b.c", "tok", 0, 0, SESSION_TIMEOUT_MS, true⟩ rfl (by decide)

/-! ## C6: session validity at the timeout boundary

The claim states validity holds exactly while
`now - lastActivityAt < timeout`, with the check returning false at
the boundary.  Both implementations use a non-strict comparison, so at
exactly `now - lastActivityAt = timeout` the check still returns true;
the counterexample below exhibits this, and the amended statement
proves the non-strict equivalence. -/

/-- Counterexample to C6 as stated: a session last active at time 1,
observed at `1 + SESSION_TIMEOUT_MS` (exactly the timeout boundary, so
not strictly within it), is still judged valid by
`SessionManager.isValid`, and likewise by the cincoscript.js
`isSessionValid`. -/
theorem session_validity_boundary_counterexample :
    smIsValid (1 + SESSION_TIMEOUT_MS) (some ⟨none, "", "", 1, 1⟩) = true ∧
    isSessionValid (1 + SESSION_TIMEOUT_MS)
      (some ⟨"e", "t", 1, 1, 1 + SESSION_TIMEOUT_MS, true⟩) = true ∧
    ¬((1 + SESSION_TIMEOUT_MS) - 1 < SESSION_TIMEOUT_MS) := by
  decide

/-- C6 (amended).  A stored session is judged valid if and only if
`now - lastActivityAt ≤ timeout` (non-strict): `SessionManager.isValid`
for any session with a truthy `lastActivity`, and the cincoscript.js
`isSessionValid` for any active session whose `expiresAt` keeps the
invariant `expiresAt = lastActivityAt + SESSION_TIMEOUT_MS` maintained
by `createSession` and `updateSessionActivity`.  Strictly beyond the
boundary both checks return false; at the boundary itself they return
true. -/
theorem session_valid_iff_within_timeout (now : Nat) (s : SMSession)
    (cs : CSession)
    (hlast : s.lastActivity ≠ 0)
    (hact : cs.isActive = true)
    (hexp : cs.expiresAt = cs.lastActivityAt + SESSION_TIMEOUT_MS) :
    (smIsValid now (some s) = true ↔
      now - s.lastActivity ≤ SESSION_TIMEOUT_MS) ∧
    (isSessionValid now (some cs) = true ↔
      now - cs.lastActivityAt ≤ SESSION_TIMEOUT_MS) ∧
    (SESSION_TIMEOUT_MS < now - s.lastActivity →
      smIsValid now (some s) = false) := by
  refine ⟨?_, ?_, ?_⟩
  · simp [smIsValid, hlast]
  · simp only [isSessionValid, hact, hexp, Bool.not_true, Bool.false_eq_true,
      if_false]
    constructor
    · intro h
      by_contra hgt
      rw [if_pos (by omega : SESSION_TIMEOUT_MS < now - cs.lastActivityAt)] at h
      · revert h
        split
        · exact fun h => absurd h (by decide)
        · exact fun h => absurd h (by decide)
    · intro h
      rw [if_neg (by omega : ¬cs.lastActivityAt + SESSION_TIMEOUT_MS < now),
        if_neg (by omega : ¬SESSION_TIMEOUT_MS < now - cs.lastActivityAt)]
  · intro h
    simp [smIsValid, hlast]
    omega

/-- Witness for C6 (amended): a session last active at time 5 is valid
at time `5 + SESSION_TIMEOUT_MS` and invalid one millisecond later. -/
theorem session_valid_iff_within_timeout_witness :
    (smIsValid (5 + SESSION_TIMEOUT_MS) (some ⟨none, "e", "t", 5, 5⟩) = true ↔
      (5 + SESSION_TIMEOUT_MS) - 5 ≤ SESSION_TIMEOUT_MS) ∧
    (SESSION_TIMEOUT_MS < (6 + SESSION_TIMEOUT_MS) - 5 →
      smIsValid (6 + SESSION_TIMEOUT_MS) (some ⟨none, "e", "t", 5, 5⟩) = false) := by
  constructor
  · exact (session_valid_iff_within_timeout (5 + SESSION_TIMEOUT_MS)
      ⟨none, "e", "t", 5, 5⟩ ⟨"e", "t", 0, 0, SESSION_TIMEOUT_MS, true⟩
      (by decide) rfl rfl).1
  · exact (session_valid_iff_within_timeout (6 + SESSION_TIMEOUT_MS)
      ⟨none, "e", "t", 5, 5⟩ ⟨"e", "t", 0, 0, SESSION_TIMEOUT_MS, true⟩
      (by decide) rfl rfl).2.2

/-! ## C8: activity refresh updates lastActivity under a throttle -/

/-- C8.  A refresh arriving within `ACTIVITY_THROTTLE_MS` of the
previous accepted refresh writes nothing: the whole state (throttle
timestamp and stored session) is unchanged and the call reports false.
An accepted refresh with a stored session stamps `lastActivity` with
the current time, which extends the validity window: the session then
passes `SessionManager.isValid` at every instant `u` with
`u - t ≤ SESSION_TIMEOUT_MS`. -/
theorem activity_refresh_throttled_and_extends (t : Nat) (st : SMState) :
    (t - st.lastActivityTs < ACTIVITY_THROTTLE_MS →
      smRefresh t st = (false, st)) ∧
    (ACTIVITY_THROTTLE_MS ≤ t - st.lastActivityTs →
      ∀ s, st.session = some s →
        (smRefresh t st).1 = true ∧
        (smRefresh t st).2.lastActivityTs = t ∧
        (smRefresh t st).2.session = some { s with lastActivity := t } ∧
        (∀ u : Nat, u - t ≤ SESSION_TIMEOUT_MS →
          smIsValid u (smRefresh t st).2.session = true)) := by
  constructor
  · intro h
    unfold smRefresh
    rw [if_pos h]
  · intro h s hs
    have ht : t ≠ 0 := by
      unfold ACTIVITY_THROTTLE_MS at h
      omega
    have hr : smRefresh t st =
        (true, { lastActivityTs := t, session := some { s with lastActivity := t } }) := by
      unfold smRefresh
      rw [if_neg (by omega), hs]
    refine ⟨by rw [hr], by rw [hr], by rw [hr], ?_⟩
    intro u hu
    rw [hr]
    unfold smIsValid
    simp only
    rw [if_neg ht]
    simpa using hu

/-- Witness for C8: with the throttle timestamp at 0 and a stored
session, a refresh at time 3 is throttled (3 < 5000) and leaves the
state unchanged, while a refresh at time 6000 is accepted and stamps
the session. -/
theorem activity_refresh_throttled_and_extends_witness :
    smRefresh 3 ⟨0, some ⟨none, "e", "t", 0, 1⟩⟩ =
      (false, ⟨0, some ⟨none, "e", "t", 0, 1⟩⟩) ∧
    (smRefresh 6000 ⟨0, some ⟨none, "e", "t", 0, 1⟩⟩).2.session =
      some ⟨none, "e", "t", 0, 6000⟩ := by
  constructor
  · exact (activity_refresh_throttled_and_extends 3
      ⟨0, some ⟨none, "e", "t", 0, 1⟩⟩).1 (by decide)
  · exact ((activity_refresh_throttled_and_extends 6000
      ⟨0, some ⟨none, "e", "t", 0, 1⟩⟩).2 (by decide)
      ⟨none, "e", "t", 0, 1⟩ rfl).2.2.1

/-! ## C4: repeated adds merge into a single line -/

/-- When no cart line matches the product on name and size,
`addToCart` appends the product at the end. -/
theorem csAddToCart_append (prod : CProduct) (c : List CProduct)
    (h : ∀ p ∈ c, (p.name == prod.name && p.size == prod.size) = false) :
    csAddToCart prod c = c ++ [prod] := by
  induction c with
  | nil => rfl
  | cons x rest ih =>
    have hx := h x (by simp)
    simp only [csAddToCart, hx, Bool.false_eq_true, if_false, List.cons_append,
      List.cons.injEq, true_and]
    exact ih (fun p hp => h p (List.mem_cons_of_mem x hp))

/-- When the only matching line sits at the end of the cart,
`addToCart` increments its quantity in place. -/
theorem csAddToCart_increments (prod x : CProduct) (c : List CProduct)
    (h : ∀ p ∈ c, (p.name == prod.name && p.size == prod.size) = false)
    (hx : (x.name == prod.name && x.size == prod.size) = true) :
    csAddToCart prod (c ++ [x]) =
      c ++ [{ x with quantity := x.quantity + 1 }] := by
  induction c with
  | nil =>
    show csAddToCart prod [x] = [{ x with quantity := x.quantity + 1 }]
    simp only [csAddToCart, hx, if_true]
  | cons y rest ih =>
    have hy := h y (by simp)
    show csAddToCart prod (y :: (rest ++ [x])) = y ::
      (rest ++ [{ x with quantity := x.quantity + 1 }])
    simp only [csAddToCart, hy, Bool.false_eq_true, if_false, List.cons.injEq,
      true_and]
    exact ih (fun p hp => h p (List.mem_cons_of_mem y hp))

/-- C4.  For every product/size pair and every number `n ≥ 1` of
repeated `addToCart` calls with the same button product, starting from
any cart with no line for that pair, the resulting cart holds exactly
one line for the pair, with quantity `n` (match increments quantity,
non-match appends); in particular adding Americano at price 70 twice
yields the single line with quantity 2, cart total 140, and
`processCheckout` accepts the resulting cart lines. -/
theorem repeated_add_yields_single_line (nm img sz : String) (pr : Int)
    (c : List CProduct) (n : Nat) (hn : 1 ≤ n)
    (hnone : c.filter (fun p => p.name == nm && p.size == sz) = []) :
    ((csAddToCart ⟨nm, pr, img, sz, 1⟩)^[n] c).filter
        (fun p => p.name == nm && p.size == sz) =
      [⟨nm, pr, img, sz, n⟩] ∧
    csAddToCart ⟨"Americano", 70, "a.png", "16oz", 1⟩
        (csAddToCart ⟨"Americano", 70, "a.png", "16oz", 1⟩ []) =
      [⟨"Americano", 70, "a.png", "16oz", 2⟩] ∧
    cartTotal [⟨"Americano", 70, "a.png", "16oz", 2⟩] = 140 ∧
    processCheckout (toCheckoutLines [⟨"Americano", 70, "a.png", "16oz", 2⟩]) =
      true := by
  refine ⟨?_, by decide, by decide, by decide⟩
  have hall : ∀ p ∈ c, (p.name == nm && p.size == sz) = false := by
    intro p hp
    have := List.filter_eq_nil_iff.mp hnone p hp
    simpa using this
  have key : ∀ m : Nat, (csAddToCart ⟨nm, pr, img, sz, 1⟩)^[m + 1] c =
      c ++ [⟨nm, pr, img, sz, m + 1⟩] := by
    intro m
    induction m with
    | zero =>
      show csAddToCart ⟨nm, pr, img, sz, 1⟩ c = c ++ [⟨nm, pr, img, sz, 1⟩]
      exact csAddToCart_append _ c hall
    | succ k ih =>
      rw [Function.iterate_succ_apply', ih]
      exact csAddToCart_increments _ _ c hall (by simp)
  obtain ⟨m, rfl⟩ : ∃ m, n = m + 1 := ⟨n - 1, by omega⟩
  rw [key m, List.filter_append, hnone, List.nil_append]
  simp

/-- Witness for C4: three adds of a Spanish Latte button product onto
an empty cart leave exactly one line with quantity 3. -/
theorem repeated_add_yields_single_line_witness :
    ((csAddToCart ⟨"Spanish Latte", 90, "s.png", "16oz", 1⟩)^[3] []).filter
        (fun p => p.name == "Spanish Latte" && p.size == "16oz") =
      [⟨"Spanish Latte", 90, "s.png", "16oz", 3⟩] :=
  (repeated_add_yields_single_line "Spanish Latte" "s.png" "16oz" 90 [] 3
    (by decide) rfl).1

/-! ## C5: carts are isolated per user -/

/-- C5.  A cart mutation by a logged-in user reads and writes only
that user's entry of the per-user cart store: for any other user, both
`addToCart` and `removeFromCart` leave that user's stored entry
unchanged, and hence the cart contents visible under the other user's
session are unchanged (switching the active session switches which
entry is read). -/
theorem cart_isolated_per_user (s : P1Session) (u v : String)
    (item : P1Item) (index : Nat) (store : CartStore)
    (hu : s.userId = some u) (hne : u ≠ v) :
    (p1AddToCart (some s) item store).2 v = store v ∧
    p1RemoveFromCart (some s) index store v = store v ∧
    visibleCart ((p1AddToCart (some s) item store).2) v = visibleCart store v ∧
    visibleCart (p1RemoveFromCart (some s) index store) v = visibleCart store v := by
  obtain ⟨suid⟩ := s
  change suid = some u at hu
  subst hu
  have hmap : ∀ w : Option (List P1Item), mapSet store u w v = store v :=
    fun w => mapSet_other store u v w (Ne.symm hne)
  have hadd : (p1AddToCart (some ⟨some u⟩) item store).2 v = store v := by
    simp only [p1AddToCart]
    split
    · rfl
    · split
      · rfl
      · exact hmap _
  have hrem : p1RemoveFromCart (some ⟨some u⟩) index store v = store v := by
    simp only [p1RemoveFromCart]
    split
    · rfl
    · exact hmap _
  exact ⟨hadd, hrem, by unfold visibleCart; rw [hadd],
    by unfold visibleCart; rw [hrem]⟩

/-- Witness for C5: `bob` adding an Americano leaves the stored cart
of `alice` untouched. -/
theorem cart_isolated_per_user_witness :
    (p1AddToCart (some ⟨some "bob"⟩) ⟨"am-16", "Americano", 70, 1⟩
      (mapSet emptyCarts "alice" (some [⟨"ml-16", "Matcha Latte", 100, 2⟩]))).2
        "alice" =
      mapSet emptyCarts "alice" (some [⟨"ml-16", "Matcha Latte", 100, 2⟩])
        "alice" :=
  (cart_isolated_per_user ⟨some "bob"⟩ "bob" "alice"
    ⟨"am-16", "Americano", 70, 1⟩ 0
    (mapSet emptyCarts "alice" (some [⟨"ml-16", "Matcha Latte", 100, 2⟩]))
    rfl (by decide)).1

/-! ## C7: addToCart requires a session -/

/-- C7.  `addToCart(item)` requires a restored session with a truthy
`userId` (the source comment: REQUIRE login, no guest sessions): with
no session, or a session without a `userId`, the call mutates nothing
(the stored carts are unchanged) and the operation is rejected with
the login prompt; with such a session present (and a valid item id)
the normalised item is merged into that user's cart entry. -/
theorem add_to_cart_requires_session (item : P1Item) (store : CartStore)
    (s : P1Session) (uid : String)
    (hu : s.userId = some uid) (huid : uid ≠ "") (hid : item.id ≠ "") :
    p1AddToCart none item store = (.rejectedNoSession, store) ∧
    (∀ s0 : P1Session, s0.userId = none →
      p1AddToCart (some s0) item store = (.rejectedNoSession, store)) ∧
    (p1AddToCart (some s) item store).1 = .added ∧
    (p1AddToCart (some s) item store).2 =
      mapSet store uid (some (p1Merge (p1Normalize item) ((store uid).getD []))) := by
  obtain ⟨suid⟩ := s
  change suid = some uid at hu
  subst hu
  have hcase : p1AddToCart (some ⟨some uid⟩) item store =
      (.added, mapSet store uid
        (some (p1Merge (p1Normalize item) ((store uid).getD [])))) := by
    simp only [p1AddToCart]
    rw [if_neg huid, if_neg hid]
  refine ⟨rfl, ?_, by rw [hcase], by rw [hcase]⟩
  intro s0 h0
  obtain ⟨s0id⟩ := s0
  change s0id = none at h0
  subst h0
  rfl

/-- Witness for C7: with no session the store is unmodified and the
call is rejected; with the session of `bob` the Americano lands in the
store under `bob`. -/
theorem add_to_cart_requires_session_witness :
    p1AddToCart none ⟨"am-16", "Americano", 70, 1⟩ emptyCarts =
      (.rejectedNoSession, emptyCarts) ∧
    (p1AddToCart (some ⟨some "bob"⟩) ⟨"am-16", "Americano", 70, 1⟩
      emptyCarts).1 = .added := by
  have h := add_to_cart_requires_session ⟨"am-16", "Americano", 70, 1⟩
    emptyCarts ⟨some "bob"⟩ "bob" rfl (by decide) (by decide)
  exact ⟨h.1, h.2.2.1⟩

/-! ## C9: the rate limiter is isolated per email key -/

/-- C9.  For any two distinct normalised email keys, `recordFailedLogin`
and `resetLoginAttempts` applied to the first email leave the stored
attempt record (count, timestamps, `lockedUntil`) of the second email
unchanged; the auto-clearing `isLocked` does too, so no operation
introduces a global lockout affecting other emails. -/
theorem rate_limiter_isolated_per_email (e1 e2 : String) (now : Nat)
    (s : AttemptStore) (h : normKey e1 ≠ normKey e2) :
    recordFailedLogin now e1 s (normKey e2) = s (normKey e2) ∧
    resetLoginAttempts e1 s (normKey e2) = s (normKey e2) ∧
    (isLocked now e1 s).2 (normKey e2) = s (normKey e2) := by
  have hrec : recordFailedLogin now e1 s (normKey e2) = s (normKey e2) := by
    unfold recordFailedLogin
    split
    · rfl
    · exact mapSet_other s (normKey e1) (normKey e2) _ (Ne.symm h)
  have hres : resetLoginAttempts e1 s (normKey e2) = s (normKey e2) := by
    unfold resetLoginAttempts
    split
    · rfl
    · split
      · exact mapSet_other s (normKey e1) (normKey e2) _ (Ne.symm h)
      · rfl
  refine ⟨hrec, hres, ?_⟩
  unfold isLocked
  simp only
  split
  · rfl
  · split
    · rfl
    · exact hres

/-- Witness for C9: a failed login recorded for `alice@x.y` leaves the
(absent) record of `bob@x.y` absent. -/
theorem rate_limiter_isolated_per_email_witness :
    recordFailedLogin 7 "alice@x.y" emptyAttempts (normKey "bob@x.y") =
      emptyAttempts (normKey "bob@x.y") :=
  (rate_limiter_isolated_per_email "alice@x.y" "bob@x.y" 7 emptyAttempts
    (by decide)).1

/-! ## C10: the rate limiter normalises its email argument -/

/-- C10.  For every pair of email strings equal after trimming
surrounding whitespace and lowercasing (i.e. with the same normalised
key), `recordFailedLogin`, `isLocked`, `getLoginStatus` and
`resetLoginAttempts` access the same stored entry and produce the same
results and the same final store: runs with either spelling are
indistinguishable. -/
theorem rate_limiter_normalizes_email (e1 e2 : String) (now : Nat)
    (s : AttemptStore) (h : normKey e1 = normKey e2) :
    getLoginStatus e1 s = getLoginStatus e2 s ∧
    recordFailedLogin now e1 s = recordFailedLogin now e2 s ∧
    resetLoginAttempts e1 s = resetLoginAttempts e2 s ∧
    isLocked now e1 s = isLocked now e2 s := by
  refine ⟨?_, ?_, ?_, ?_⟩
  · unfold getLoginStatus
    rw [h]
  · unfold recordFailedLogin
    rw [h]
  · unfold resetLoginAttempts
    rw [h]
  · unfold isLocked getLoginStatus resetLoginAttempts
    rw [h]

/-- Witness for C10: the spellings `"  Foo@Bar.Com "` and
`"foo@bar.com"` are interchangeable for `isLocked`. -/
theorem rate_limiter_normalizes_email_witness :
    isLocked 0 "  Foo@Bar.Com " emptyAttempts =
      isLocked 0 "foo@bar.com" emptyAttempts :=
  (rate_limiter_normalizes_email "  Foo@Bar.Com " "foo@bar.com" 0
    emptyAttempts (by decide)).2.2.2

end Cinco

